import Mathlib

/-!
Verification development for the rugit repository (an interactive terminal
front-end for git built on the git2 library).

The first part embeds the workflow engine of src/git_utils.rs as pure
functions over an abstract repository state.  The backing store (libgit2)
is an external collaborator: its observable answers (merge analysis,
merged-index conflicts, tree ids, remote tips) are carried as oracle
fields of the state, while the refs, the commit store and the staging
index are modelled explicitly.  Each embedded operation follows the order
of checks and mutations of its Rust source; an error result models a
bail-out (anyhow::bail or a failing backing call) before any modelled
mutation of the parts the theorems observe.

The second part embeds the per-view interactive state machines of
src/tui_module and the application shell of src/app.rs.
-/

/-- Error taxonomy of the workflow engine, following the failure
categories of the specification: absent branch or remote, name collision,
operation rejected by a consistency rule, unresolved merge conflicts,
failing backing-store call, and an unrecognized merge-analysis result. -/
inductive GitError where
  | notFound
  | alreadyExists
  | invalidOperation
  | conflict
  | backendFailure
  | unknown
deriving Repr, DecidableEq

/-- Classification returned by the merge-analysis call of the backing
store for integrating a given tip against the current HEAD. -/
inductive MergeKind where
  | upToDate
  | fastForward
  | normal
  | unknown
deriving Repr, DecidableEq

/-- Record stored for one commit: ordered parent ids, message, tree id. -/
structure CommitData where
  parents : List Nat
  message : String
  tree : Nat
deriving Repr, DecidableEq

/-- Abstract repository state.  branches maps local branch names to tip
commit ids; headBranch is the shorthand of the currently checked-out
branch (repositories whose HEAD is attached to a branch ref); commits is
the commit store; indexEntries are the staged paths.  The remaining
fields are oracles for the answers of the backing store: analysis gives
the merge-analysis classification of a tip against the current HEAD,
mergeConflicts tells whether the merged index has conflicts, mergedTree
is the tree id written from the merged index, indexTree the tree id
written from the staging index, freshId the id the store assigns to the
next created commit, remotes the configured remote names, remoteTip the
tip a fetch of a branch from a remote would bring, and fetched records
the remote-tracking updates performed by fetches. -/
structure RepoState where
  branches : List (String × Nat)
  headBranch : String
  commits : List (Nat × CommitData)
  indexEntries : List String
  indexTree : Nat
  analysis : Nat → MergeKind
  mergeConflicts : Bool
  mergedTree : Nat
  freshId : Nat
  remotes : List String
  remoteTip : String → String → Option Nat
  fetched : List ((String × String) × Nat)

/-- Resolution of a local branch name to its tip commit id
(repo.find_branch / refname_to_id on refs/heads/name). -/
def lookupBranch (bs : List (String × Nat)) (name : String) : Option Nat :=
  (bs.find? (fun p => p.1 == name)).map (fun p => p.2)

/-- Retargeting of one named ref (reference.set_target): every entry with
the given name is pointed at the given commit id. -/
def setBranchTarget (bs : List (String × Nat)) (name : String) (tid : Nat) :
    List (String × Nat) :=
  bs.map (fun p => if p.1 == name then (p.1, tid) else p)

/-- Single-quote character, kept out of string literals. -/
def squote : Char := Char.ofNat 39

/-- Wrapping of a string in single quotes, as the format! calls of the
source do for names and messages. -/
def quoted (s : String) : String :=
  String.singleton squote ++ s ++ String.singleton squote

/-- Embedding of create_branch (src/git_utils.rs).  Fails when the name
already names a local branch; otherwise resolves HEAD to a commit and
creates the branch ref pointing at it, without switching to it.  A HEAD
that does not resolve to a commit is a failing backing call. -/
def create_branch (r : RepoState) (name : String) : Except GitError RepoState :=
  if (lookupBranch r.branches name).isSome then
    .error .alreadyExists
  else
    match lookupBranch r.branches r.headBranch with
    | none => .error .backendFailure
    | some h => .ok { r with branches := r.branches ++ [(name, h)] }

/-- Embedding of delete_branch (src/git_utils.rs).  Compares the name
against the HEAD shorthand first and rejects deleting the checked-out
branch; then requires the branch to exist and removes its ref. -/
def delete_branch (r : RepoState) (name : String) : Except GitError RepoState :=
  if r.headBranch == name then
    .error .invalidOperation
  else
    match lookupBranch r.branches name with
    | none => .error .notFound
    | some _ =>
        .ok { r with branches := r.branches.filter (fun p => !(p.1 == name)) }

/-- Embedding of commit_changes (src/git_utils.rs).  Fails when the index
is empty; otherwise writes the tree from the index and creates either a
root commit (no resolvable HEAD commit yet) or a commit with exactly one
parent, the current HEAD commit, moving HEAD to the new commit. -/
def commit_changes (r : RepoState) (message : String) : Except GitError RepoState :=
  if r.indexEntries.isEmpty then
    .error .invalidOperation
  else
    let tree := r.indexTree
    match lookupBranch r.branches r.headBranch with
    | none =>
        .ok { r with
          commits := r.commits ++ [(r.freshId, ⟨[], message, tree⟩)],
          branches := r.branches ++ [(r.headBranch, r.freshId)],
          freshId := r.freshId + 1 }
    | some h =>
        .ok { r with
          commits := r.commits ++ [(r.freshId, ⟨[h], message, tree⟩)],
          branches := setBranchTarget r.branches r.headBranch r.freshId,
          freshId := r.freshId + 1 }

/-- Message of the integration commit of merge_branch. -/
def mergeMsg (name : String) : String :=
  "Merge branch " ++ quoted name

/-- Embedding of merge_branch (src/git_utils.rs).  Rejects a self-merge,
resolves the tip of the named branch, classifies the integration, and
acts on the classification.  Note that in the fast-forward arm the
source builds refname from branch_name, the merged-in branch, and sets
that ref to the merged-in tip; the ref of the current branch is not
touched there.  In the normal arm it creates a commit with parents
[current HEAD commit, merged-in tip] and message built by mergeMsg,
provided the merged index has no conflicts. -/
def merge_branch (r : RepoState) (name : String) : Except GitError RepoState :=
  if r.headBranch == name then
    .error .invalidOperation
  else
    match lookupBranch r.branches name with
    | none => .error .notFound
    | some mergeTip =>
        match r.analysis mergeTip with
        | .upToDate => .error .invalidOperation
        | .fastForward =>
            .ok { r with branches := setBranchTarget r.branches name mergeTip }
        | .normal =>
            if r.mergeConflicts then
              .error .conflict
            else
              match lookupBranch r.branches r.headBranch with
              | none => .error .backendFailure
              | some headTip =>
                  .ok { r with
                    commits := r.commits ++
                      [(r.freshId, ⟨[headTip, mergeTip], mergeMsg name, r.mergedTree⟩)],
                    branches := setBranchTarget r.branches r.headBranch r.freshId,
                    freshId := r.freshId + 1 }
        | .unknown => .error .unknown

/-- Embedding of pull_branch (src/git_utils.rs).  The source first finds
the remote, then resolves the annotated commit from refs/heads/branch,
the local branch ref, before fetching; the fetch only updates the
remote-tracking state (recorded in fetched), and the classification and
the integration then use the previously resolved local tip.  The normal
arm creates a commit with parents [current HEAD commit, that local tip]
and message Pull from remote/branch. -/
def pull_branch (r : RepoState) (remote : String) (branch : String) :
    Except GitError RepoState :=
  if !(r.remotes.contains remote) then
    .error .notFound
  else
    match lookupBranch r.branches branch with
    | none => .error .notFound
    | some localTip =>
        match r.remoteTip remote branch with
        | none => .error .backendFailure
        | some fetchedTip =>
            let r1 := { r with fetched := r.fetched ++ [((remote, branch), fetchedTip)] }
            match r1.analysis localTip with
            | .upToDate => .error .invalidOperation
            | .fastForward =>
                .ok { r1 with branches := setBranchTarget r1.branches branch localTip }
            | .normal =>
                if r1.mergeConflicts then
                  .error .conflict
                else
                  match lookupBranch r1.branches r1.headBranch with
                  | none => .error .backendFailure
                  | some headTip =>
                      .ok { r1 with
                        commits := r1.commits ++
                          [(r1.freshId,
                            ⟨[headTip, localTip],
                             "Pull from " ++ remote ++ "/" ++ branch,
                             r1.mergedTree⟩)],
                        branches := setBranchTarget r1.branches r1.headBranch r1.freshId,
                        freshId := r1.freshId + 1 }
            | .unknown => .error .unknown

/-- Branch table of a successful engine result. -/
def okBranches : Except GitError RepoState → Option (List (String × Nat))
  | .ok r => some r.branches
  | .error _ => none

/-- Commit store of a successful engine result. -/
def okCommits : Except GitError RepoState → Option (List (Nat × CommitData))
  | .ok r => some r.commits
  | .error _ => none

/-- Remote-tracking fetch record of a successful engine result. -/
def okFetched : Except GitError RepoState → Option (List ((String × String) × Nat))
  | .ok r => some r.fetched
  | .error _ => none

/-!
Embedding of the interactive layer: the per-view state machines of
src/tui_module and the application shell of src/app.rs.  External reads
of the repository performed during a refresh, and the outcomes of the
engine calls issued by the views, are supplied by an environment record
standing for the backing store.
-/

/-- Keyboard events the shell and the views distinguish. -/
inductive Key where
  | char (c : Char)
  | enter
  | esc
  | tab
  | up
  | down
  | backspace
  | other
deriving Repr, DecidableEq

/-- Active-view selector of the application shell (enum ActiveView of
src/app.rs). -/
inductive ActiveView where
  | status
  | log
  | branch
  | commit
  | help
deriving Repr, DecidableEq

/-- Debug rendering of an ActiveView value, as format! with the Debug
formatter produces in switch_view. -/
def ActiveView.debugName : ActiveView → String
  | .status => "Status"
  | .log => "Log"
  | .branch => "Branch"
  | .commit => "Commit"
  | .help => "Help"

/-- List entry of the Log view (struct CommitItem of log_view.rs). -/
structure CommitItem where
  id : String
  author : String
  date : String
  message : String
deriving Repr, DecidableEq

/-- Detail record of the Log view (struct CommitDetail of log_view.rs). -/
structure CommitDetail where
  id : String
  author : String
  date : String
  message : String
  parents : List String
deriving Repr, DecidableEq

/-- State of the Log view. -/
structure LogView where
  items : List CommitItem
  selected : Nat
  detailedCommit : Option CommitDetail
deriving Repr, DecidableEq

/-- Input modes of the Branch view. -/
inductive BranchInputMode where
  | normal
  | creatingBranch
  | deletingBranch
deriving Repr, DecidableEq

/-- State of the Branch view. -/
structure BranchView where
  items : List String
  inputMode : BranchInputMode
  input : String
  selected : Nat
deriving Repr, DecidableEq

/-- State of the Status view wired into the shell
(src/tui_module/status_view.rs): a bare item list, with no input mode and
no selection. -/
structure StatusView where
  items : List String
deriving Repr, DecidableEq

/-- Input modes of the Commit view. -/
inductive CommitInputMode where
  | normal
  | writingCommit
deriving Repr, DecidableEq

/-- State of the Commit view. -/
structure CommitView where
  inputMode : CommitInputMode
  commitMessage : String
deriving Repr, DecidableEq

/-- State of the Help view wired into the shell. -/
structure HelpView where
  visible : Bool
deriving Repr, DecidableEq

/-- Outcome of the repository walk performed by LogView::update.  The
three constructors mirror the control flow of the source: openFailure is
the Err arm of the outer match on Repository::open, which pushes one
error item and then falls through to the final selection clamp;
walkFailure is a failure creating the revwalk or pushing HEAD, which
pushes one error item and returns early, before the clamp; success is
the walked item list (its elements may themselves be per-commit error
items, which are pushed without returning). -/
inductive LogFetch where
  | openFailure (e : CommitItem)
  | walkFailure (e : CommitItem)
  | success (walked : List CommitItem)

/-- Environment supplying the answers of the backing store to the
interactive layer: the item lists a refresh derives from the repository,
the detail record the Log view fetches for a commit id, and the outcomes
of the engine calls issued by the Branch and Commit views.  Errors carry
their display string. -/
structure Env where
  statusItems : List String
  logFetch : LogFetch
  branchItems : List String
  commitDetail : String → Except String CommitDetail
  createBranchRes : String → Except String Unit
  deleteBranchRes : String → Except String Unit
  switchBranchRes : String → Except String Unit
  commitRes : String → Except String Unit

/-- Embedding of LogView::update (log_view.rs).  The items are cleared
and the detail record is dropped on every path.  A failure creating the
revwalk or pushing HEAD pushes a single error item and returns early,
skipping the final clamp.  A failure opening the repository pushes a
single error item and falls through, like the success path, to the final
clamp, which moves the selection to the last index of the new list when
it is out of bounds and nonzero. -/
def LogView.update (fetch : LogFetch) (v : LogView) : LogView :=
  match fetch with
  | .walkFailure e => { items := [e], selected := v.selected, detailedCommit := none }
  | .openFailure e =>
      let items := [e]
      let selected :=
        if v.selected ≥ items.length ∧ v.selected > 0 then items.length - 1
        else v.selected
      { items := items, selected := selected, detailedCommit := none }
  | .success walked =>
      let selected :=
        if v.selected ≥ walked.length ∧ v.selected > 0 then walked.length - 1
        else v.selected
      { items := walked, selected := selected, detailedCommit := none }

/-- Embedding of BranchView::update (branch_view.rs).  The item list is
cleared and re-derived from the repository; the input mode, the input
buffer and the selection index are left untouched. -/
def BranchView.update (fetched : List String) (v : BranchView) : BranchView :=
  { v with items := fetched }

/-- Embedding of StatusView::update of the wired Status view
(src/tui_module/status_view.rs): the item list is cleared and re-derived. -/
def StatusView.update (fetched : List String) (_v : StatusView) : StatusView :=
  { items := fetched }

/-- Embedding of LogView::handle_input (log_view.rs). -/
def LogView.handleInput (env : Env) (key : Key) (v : LogView) (msgs : List String) :
    Except String (LogView × List String) :=
  match key with
  | .down =>
      .ok ({ v with selected :=
        if v.selected < v.items.length - 1 then v.selected + 1 else v.selected }, msgs)
  | .up =>
      .ok ({ v with selected :=
        if v.selected > 0 then v.selected - 1 else v.selected }, msgs)
  | .enter =>
      if v.items.isEmpty then .ok (v, msgs)
      else
        match v.items.get? v.selected with
        | none =>
            -- selection out of the item bounds: the source indexes the
            -- vector directly and would abort here, outside the model
            .ok (v, msgs)
        | some commit =>
            match env.commitDetail commit.id with
            | .error e => .error e
            | .ok detail => .ok ({ v with detailedCommit := some detail }, msgs)
  | .char c =>
      if c == 'r' then
        .ok (LogView.update env.logFetch v, msgs ++ ["Commit logs refreshed."])
      else .ok (v, msgs)
  | .esc =>
      if v.detailedCommit.isSome then .ok ({ v with detailedCommit := none }, msgs)
      else .ok (v, msgs)
  | _ => .ok (v, msgs)

/-- Repeated removal of a leading star-space marker, as
trim_start_matches of the source does on a branch line. -/
def dropStarMarker : List Char → List Char
  | '*' :: ' ' :: rest => dropStarMarker rest
  | l => l

/-- Branch name derived from a selected branch line: the current-branch
marker is stripped and the result trimmed. -/
def branchLineName (s : String) : String :=
  (String.mk (dropStarMarker s.data)).trim

/-- Embedding of BranchView::handle_input (branch_view.rs). -/
def BranchView.handleInput (env : Env) (key : Key) (v : BranchView)
    (msgs : List String) : Except String (BranchView × List String) :=
  match v.inputMode with
  | .normal =>
      match key with
      | .char c =>
          if c == 'c' then
            .ok ({ v with inputMode := .creatingBranch, input := "" },
              msgs ++ ["Enter new branch name:"])
          else if c == 'd' then
            if !v.items.isEmpty then
              .ok ({ v with inputMode := .deletingBranch, input := "" },
                msgs ++ ["Enter branch name to delete:"])
            else
              .ok (v, msgs ++ ["No branches available to delete."])
          else .ok (v, msgs)
      | .down =>
          .ok ({ v with selected :=
            if v.selected < v.items.length - 1 then v.selected + 1 else v.selected }, msgs)
      | .up =>
          .ok ({ v with selected :=
            if v.selected > 0 then v.selected - 1 else v.selected }, msgs)
      | .enter =>
          if !v.items.isEmpty then
            match v.items.get? v.selected with
            | none =>
                -- selection out of the item bounds: the source indexes the
                -- vector directly and would abort here, outside the model
                .ok (v, msgs)
            | some line =>
                let branchName := branchLineName line
                let msgs :=
                  match env.switchBranchRes branchName with
                  | .ok _ => msgs ++ ["Switched to branch " ++ quoted branchName ++ "."]
                  | .error e => msgs ++ ["Failed to switch branch: " ++ e]
                .ok (BranchView.update env.branchItems v, msgs)
          else .ok (v, msgs)
      | _ => .ok (v, msgs)
  | .creatingBranch =>
      match key with
      | .enter =>
          let branchName := v.input.trim
          if branchName.isEmpty then
            .ok ({ v with inputMode := .normal, input := "" },
              msgs ++ ["Branch name cannot be empty."])
          else
            let msgs :=
              match env.createBranchRes branchName with
              | .ok _ => msgs ++ ["Branch " ++ quoted branchName ++ " created."]
              | .error e => msgs ++ ["Failed to create branch: " ++ e]
            .ok ({ BranchView.update env.branchItems v with
              inputMode := .normal, input := "" }, msgs)
      | .esc =>
          .ok ({ v with inputMode := .normal, input := "" },
            msgs ++ ["Branch creation cancelled."])
      | .char c => .ok ({ v with input := v.input.push c }, msgs)
      | .backspace => .ok ({ v with input := String.mk v.input.data.dropLast }, msgs)
      | _ => .ok (v, msgs)
  | .deletingBranch =>
      match key with
      | .enter =>
          let branchName := v.input.trim
          if branchName.isEmpty then
            .ok ({ v with inputMode := .normal, input := "" },
              msgs ++ ["Branch name cannot be empty."])
          else
            let msgs :=
              match env.deleteBranchRes branchName with
              | .ok _ => msgs ++ ["Branch " ++ quoted branchName ++ " deleted."]
              | .error e => msgs ++ ["Failed to delete branch: " ++ e]
            .ok ({ BranchView.update env.branchItems v with
              inputMode := .normal, input := "" }, msgs)
      | .esc =>
          .ok ({ v with inputMode := .normal, input := "" },
            msgs ++ ["Branch deletion cancelled."])
      | .char c => .ok ({ v with input := v.input.push c }, msgs)
      | .backspace => .ok ({ v with input := String.mk v.input.data.dropLast }, msgs)
      | _ => .ok (v, msgs)

/-- Embedding of CommitView::handle_input (commit_view.rs). -/
def CommitView.handleInput (env : Env) (key : Key) (v : CommitView)
    (msgs : List String) : Except String (CommitView × List String) :=
  match v.inputMode with
  | .normal =>
      match key with
      | .char c =>
          if c == 'c' then
            .ok ({ inputMode := .writingCommit, commitMessage := "" },
              msgs ++ ["Enter your commit message below."])
          else .ok (v, msgs)
      | _ => .ok (v, msgs)
  | .writingCommit =>
      match key with
      | .enter =>
          let message := v.commitMessage.trim
          if message.isEmpty then
            .ok (v, msgs ++ ["Commit message cannot be empty."])
          else
            let msgs :=
              match env.commitRes message with
              | .ok _ => msgs ++ ["Committed with message: " ++ quoted message]
              | .error e => msgs ++ ["Failed to commit: " ++ e]
            .ok ({ inputMode := .normal, commitMessage := "" }, msgs)
      | .esc =>
          .ok ({ inputMode := .normal, commitMessage := "" },
            msgs ++ ["Commit cancelled."])
      | .char c => .ok ({ v with commitMessage := v.commitMessage.push c }, msgs)
      | .backspace =>
          .ok ({ v with commitMessage := String.mk v.commitMessage.data.dropLast }, msgs)
      | _ => .ok (v, msgs)

/-- Embedding of HelpView::handle_input of the wired Help view: the h key
toggles visibility. -/
def HelpView.handleInput (key : Key) (v : HelpView) : HelpView :=
  if key == Key.char 'h' then { visible := !v.visible } else v

/-- State of the application shell (struct App of src/app.rs). -/
structure App where
  activeView : ActiveView
  statusView : StatusView
  logView : LogView
  branchView : BranchView
  commitView : CommitView
  helpView : HelpView
  messages : List String

/-- Successor view of the cyclic active-view selector, as matched in
App::switch_view. -/
def nextView : ActiveView → ActiveView
  | .status => .log
  | .log => .branch
  | .branch => .commit
  | .commit => .help
  | .help => .status

/-- Embedding of App::switch_view: the selector advances by one position
and a switch message is appended. -/
def App.switchView (a : App) : App :=
  let nv := nextView a.activeView
  { a with
    activeView := nv
    messages := a.messages ++ ["Switched to " ++ nv.debugName] }

/-- Embedding of App::handle_input (src/app.rs).  The quit key ends the
loop before any dispatch; Tab advances the selector; every other key goes
to the active view.  In the source the entire Status arm of the dispatch
is commented out, so a key arriving while the Status view is active is
dropped without any effect; the Help arm forwards to the Help view, and
the Log, Branch and Commit arms forward to their views and convert an
error into an appended message. -/
def App.handleInput (env : Env) (key : Key) (a : App) : Bool × App :=
  if key == Key.char 'q' then (true, a)
  else if key == Key.tab then (false, a.switchView)
  else
    match a.activeView with
    | .status =>
        -- the dispatch to the Status view is commented out in the source
        (false, a)
    | .log =>
        match LogView.handleInput env key a.logView a.messages with
        | .ok (lv, msgs) => (false, { a with logView := lv, messages := msgs })
        | .error e => (false, { a with messages := a.messages ++ ["Error: " ++ e] })
    | .branch =>
        match BranchView.handleInput env key a.branchView a.messages with
        | .ok (bv, msgs) => (false, { a with branchView := bv, messages := msgs })
        | .error e => (false, { a with messages := a.messages ++ ["Error: " ++ e] })
    | .commit =>
        match CommitView.handleInput env key a.commitView a.messages with
        | .ok (cv, msgs) => (false, { a with commitView := cv, messages := msgs })
        | .error e => (false, { a with messages := a.messages ++ ["Error: " ++ e] })
    | .help =>
        (false, { a with helpView := HelpView.handleInput key a.helpView })

/-- Embedding of App::on_tick (src/app.rs): the active view is refreshed;
the Commit and Help views are no-ops on tick. -/
def App.onTick (env : Env) (a : App) : App :=
  match a.activeView with
  | .status => { a with statusView := StatusView.update env.statusItems a.statusView }
  | .log => { a with logView := LogView.update env.logFetch a.logView }
  | .branch => { a with branchView := BranchView.update env.branchItems a.branchView }
  | .commit => a
  | .help => a

/-- Split of a character list at the first space, as split_once of the
source does on a status line. -/
def splitOnceAux : List Char → Option (List Char × List Char)
  | [] => none
  | c :: rest =>
      if c = ' ' then some ([], rest)
      else
        match splitOnceAux rest with
        | some (a, b) => some (c :: a, b)
        | none => none

/-- Split of a string at the first space into the part before and the
part after; none when the string has no space. -/
def splitOnceSpace (s : String) : Option (String × String) :=
  (splitOnceAux s.data).map (fun p => (String.mk p.1, String.mk p.2))

namespace Views

/-- Input modes of the staging-capable Status view
(src/tui_module/views/status_view.rs). -/
inductive InputMode where
  | normal
  | addingFiles
deriving Repr, DecidableEq

/-- State of the staging-capable Status view
(src/tui_module/views/status_view.rs). -/
structure StatusView where
  items : List String
  inputMode : InputMode
  input : String
  selected : Nat
deriving Repr, DecidableEq

/-- Environment of the staging-capable Status view: the outcome of the
add_files engine call for a path, and the item list fetch_status derives
from the repository statuses (an error carries its display string). -/
structure Env where
  addFilesRes : String → Except String Unit
  fetchStatus : Except String (List String)

/-- Embedding of the handle_input of the staging-capable Status view
(src/tui_module/views/status_view.rs).  The third component of the result
collects the paths passed to add_files during the call.  In Normal mode
the a key enters AddingFiles with a prompt and Up and Down move the
bounded selection.  In AddingFiles, Enter looks up the currently selected
status line, parses the path as the tail after the first space, stages it
through add_files, refreshes the items through fetch_status (a failure
there leaves the cleared item list and appends a message), and in every
sub-case returns the mode to Normal; Esc cancels with a message. -/
def StatusView.handleInput (env : Env) (key : Key) (v : StatusView)
    (msgs : List String) : StatusView × List String × List String :=
  match v.inputMode with
  | .normal =>
      match key with
      | .char c =>
          if c == 'a' then
            ({ v with inputMode := .addingFiles, input := "" },
             msgs ++ ["Press " ++ quoted "Enter" ++ " to stage selected file or " ++
               quoted "Esc" ++ " to cancel."],
             [])
          else (v, msgs, [])
      | .down =>
          ({ v with selected :=
            if v.selected < v.items.length - 1 then v.selected + 1 else v.selected },
           msgs, [])
      | .up =>
          ({ v with selected :=
            if v.selected > 0 then v.selected - 1 else v.selected },
           msgs, [])
      | _ => (v, msgs, [])
  | .addingFiles =>
      match key with
      | .enter =>
          match v.items.get? v.selected with
          | some selectedItem =>
              match splitOnceSpace selectedItem with
              | some (_, filePath) =>
                  match env.addFilesRes filePath with
                  | .ok _ =>
                      let msgs := msgs ++ ["Staged file " ++ quoted filePath ++ "."]
                      match env.fetchStatus with
                      | .ok fetchedItems =>
                          ({ items := fetchedItems, inputMode := .normal,
                             input := v.input, selected := v.selected },
                           msgs, [filePath])
                      | .error e =>
                          ({ items := [], inputMode := .normal,
                             input := v.input, selected := v.selected },
                           msgs ++ ["Error fetching status: " ++ e], [filePath])
                  | .error e =>
                      ({ v with inputMode := .normal },
                       msgs ++ ["Failed to stage " ++ quoted filePath ++ ": " ++ e],
                       [])
              | none => ({ v with inputMode := .normal }, msgs, [])
          | none => ({ v with inputMode := .normal }, msgs, [])
      | .esc =>
          ({ v with inputMode := .normal }, msgs ++ ["Cancelled staging files."], [])
      | _ => (v, msgs, [])

end Views

/-!
Concrete fixtures used to evaluate the embedded operations on the
scenarios of the claims.
-/

/-- Repository of the fast-forward scenario: root commit 0 (A) on main,
commit 1 (B) on feature with parent 0, main checked out at 0, and the
merge analysis classifying the integration of tip 1 as fast-forward. -/
def c1repo : RepoState :=
  { branches := [("main", 0), ("feature", 1)]
    headBranch := "main"
    commits := [(0, ⟨[], "A", 10⟩), (1, ⟨[0], "B", 11⟩)]
    indexEntries := []
    indexTree := 0
    analysis := fun t => if t == 1 then .fastForward else .unknown
    mergeConflicts := false
    mergedTree := 0
    freshId := 2
    remotes := []
    remoteTip := fun _ _ => none
    fetched := [] }

/-- Repository of the pull scenario: local branch b at commit 1, main
checked out at commit 0, remote origin holding b at commit 9, the
analysis of tip 1 classified normal and a conflict-free merged index. -/
def c2repo : RepoState :=
  { branches := [("main", 0), ("b", 1)]
    headBranch := "main"
    commits := [(0, ⟨[], "root", 10⟩), (1, ⟨[0], "local b", 11⟩)]
    indexEntries := []
    indexTree := 0
    analysis := fun t => if t == 1 then .normal else .unknown
    mergeConflicts := false
    mergedTree := 12
    freshId := 5
    remotes := ["origin"]
    remoteTip := fun r b => if r == "origin" && b == "b" then some 9 else none
    fetched := [] }

/-- Environment of the Status staging scenario at the shell level; its
oracle answers are irrelevant because the dispatch never consults them. -/
def c4env : Env :=
  { statusItems := []
    logFetch := .success []
    branchItems := []
    commitDetail := fun _ => .error "unused"
    createBranchRes := fun _ => .ok ()
    deleteBranchRes := fun _ => .ok ()
    switchBranchRes := fun _ => .ok ()
    commitRes := fun _ => .ok () }

/-- Shell state of the Status staging scenario: Status view active with
the two status lines of the scenario in the wired Status view. -/
def c4app : App :=
  { activeView := .status
    statusView := ⟨["?? a.txt", "M b.txt"]⟩
    logView := ⟨[], 0, none⟩
    branchView := ⟨[], .normal, "", 0⟩
    commitView := ⟨.normal, ""⟩
    helpView := ⟨false⟩
    messages := [] }

/-- Environment of the staging-capable Status view for the scenario:
add_files succeeds and the refresh returns the post-staging statuses. -/
def c4venv : Views.Env :=
  { addFilesRes := fun _ => .ok ()
    fetchStatus := .ok ["?? a.txt", "A b.txt"] }

/-- State of the staging-capable Status view for the scenario: items
of the scenario, Normal mode, selection index 1. -/
def c4vstate : Views.StatusView :=
  { items := ["?? a.txt", "M b.txt"]
    inputMode := .normal
    input := ""
    selected := 1 }

/-- First step of the scenario on the staging-capable machine: the a key. -/
def c4step1 : Views.StatusView × List String × List String :=
  Views.StatusView.handleInput c4venv (Key.char 'a') c4vstate []

/-- Second step of the scenario: Enter, from the state after the a key. -/
def c4step2 : Views.StatusView × List String × List String :=
  Views.StatusView.handleInput c4venv Key.enter c4step1.1 c4step1.2.1

/-- Repository of the three-way merge scenario: common ancestor 1, main
at commit 2, feature at commit 3, analysis of tip 3 normal, merged tree
7, next commit id 4. -/
def c5repo : RepoState :=
  { branches := [("main", 2), ("feature", 3)]
    headBranch := "main"
    commits := [(1, ⟨[], "A", 10⟩), (2, ⟨[1], "C", 11⟩), (3, ⟨[1], "D", 12⟩)]
    indexEntries := []
    indexTree := 0
    analysis := fun t => if t == 3 then .normal else .unknown
    mergeConflicts := false
    mergedTree := 7
    freshId := 4
    remotes := []
    remoteTip := fun _ _ => none
    fetched := [] }

/-- Repository with an empty staging index. -/
def c6repo : RepoState :=
  { branches := [("main", 0)]
    headBranch := "main"
    commits := [(0, ⟨[], "root", 10⟩)]
    indexEntries := []
    indexTree := 0
    analysis := fun _ => .unknown
    mergeConflicts := false
    mergedTree := 0
    freshId := 1
    remotes := []
    remoteTip := fun _ _ => none
    fetched := [] }

/-- Single-branch repository with main checked out. -/
def c7repo : RepoState :=
  { branches := [("main", 0)]
    headBranch := "main"
    commits := [(0, ⟨[], "root", 10⟩)]
    indexEntries := []
    indexTree := 0
    analysis := fun _ => .unknown
    mergeConflicts := false
    mergedTree := 0
    freshId := 1
    remotes := []
    remoteTip := fun _ _ => none
    fetched := [] }

/-- Repository for the branch round-trip: one branch main at commit 0,
and the name dev free. -/
def c8repo : RepoState :=
  { branches := [("main", 0)]
    headBranch := "main"
    commits := [(0, ⟨[], "root", 10⟩)]
    indexEntries := []
    indexTree := 0
    analysis := fun _ => .unknown
    mergeConflicts := false
    mergedTree := 0
    freshId := 1
    remotes := []
    remoteTip := fun _ _ => none
    fetched := [] }

/-- Environment for the Log tick scenario. -/
def c10env : Env :=
  { statusItems := []
    logFetch := .success [⟨"c0", "me", "today", "root"⟩]
    branchItems := []
    commitDetail := fun _ => .error "unused"
    createBranchRes := fun _ => .ok ()
    deleteBranchRes := fun _ => .ok ()
    switchBranchRes := fun _ => .ok ()
    commitRes := fun _ => .ok () }

/-- Shell state with the Log view active and a commit detail showing. -/
def c10app : App :=
  { activeView := .log
    statusView := ⟨[]⟩
    logView := ⟨[⟨"c0", "me", "today", "root"⟩], 0, some ⟨"c0", "me", "today", "root", []⟩⟩
    branchView := ⟨[], .normal, "", 0⟩
    commitView := ⟨.normal, ""⟩
    helpView := ⟨false⟩
    messages := [] }

/-!
Helper lemmas about branch lookup and ref removal.
-/

/-- Lookup on a cons whose head carries the name. -/
theorem lookupBranch_cons_self (a : String × Nat) (t : List (String × Nat))
    (n : String) (hb : a.1 = n) : lookupBranch (a :: t) n = some a.2 := by
  simp [lookupBranch, List.find?, hb]

/-- Lookup on a cons whose head misses the name. -/
theorem lookupBranch_cons_ne (a : String × Nat) (t : List (String × Nat))
    (n : String) (hb : (a.1 == n) = false) :
    lookupBranch (a :: t) n = lookupBranch t n := by
  simp [lookupBranch, List.find?, hb]

/-- Lookup distributes over an append when the first part misses. -/
theorem lookupBranch_append_of_none (l1 l2 : List (String × Nat)) (n : String)
    (h : lookupBranch l1 n = none) :
    lookupBranch (l1 ++ l2) n = lookupBranch l2 n := by
  induction l1 with
  | nil => rfl
  | cons a t ih =>
      by_cases hb : a.1 = n
      · rw [lookupBranch_cons_self a t n hb] at h
        exact Option.noConfusion h
      · have hb2 : (a.1 == n) = false := beq_eq_false_iff_ne.mpr hb
        have ht : lookupBranch t n = none := by
          rw [lookupBranch_cons_ne a t n hb2] at h
          exact h
        rw [List.cons_append, lookupBranch_cons_ne a (t ++ l2) n hb2]
        exact ih ht

/-- Removing a name that no entry carries keeps the ref list intact. -/
theorem filter_keep_of_lookup_none (l : List (String × Nat)) (n : String)
    (h : lookupBranch l n = none) :
    l.filter (fun p => !(p.1 == n)) = l := by
  induction l with
  | nil => rfl
  | cons a t ih =>
      by_cases hb : a.1 = n
      · rw [lookupBranch_cons_self a t n hb] at h
        exact Option.noConfusion h
      · have hb2 : (a.1 == n) = false := beq_eq_false_iff_ne.mpr hb
        have ht : lookupBranch t n = none := by
          rw [lookupBranch_cons_ne a t n hb2] at h
          exact h
        simp only [List.filter, hb2, Bool.not_false]
        rw [ih ht]

/-- Names with distinct lookup outcomes are distinct. -/
theorem ne_of_lookup_some_none (l : List (String × Nat)) (a b : String) (x : Nat)
    (ha : lookupBranch l a = some x) (hb : lookupBranch l b = none) : a ≠ b := by
  intro he
  rw [he, hb] at ha
  exact Option.noConfusion ha

/-- Unfolding of create_branch on a fresh name under a resolvable HEAD. -/
theorem create_branch_eq (r : RepoState) (name : String) (h : Nat)
    (hnew : lookupBranch r.branches name = none)
    (hhead : lookupBranch r.branches r.headBranch = some h) :
    create_branch r name = .ok { r with branches := r.branches ++ [(name, h)] } := by
  unfold create_branch
  rw [hnew, hhead]
  rfl

/-- Unfolding of delete_branch on an existing, not checked-out branch. -/
theorem delete_branch_eq (r : RepoState) (name : String) (x : Nat)
    (hne : r.headBranch ≠ name)
    (hfind : lookupBranch r.branches name = some x) :
    delete_branch r name =
      .ok { r with branches := r.branches.filter (fun p => !(p.1 == name)) } := by
  unfold delete_branch
  rw [beq_eq_false_iff_ne.mpr hne, hfind]
  rfl

/-- C6: for every repository whose index is empty and every message,
commit_changes fails with InvalidOperation; the bail happens before any
tree or commit is written, so the commit store and HEAD are untouched. -/
theorem commit_changes_empty_index (r : RepoState) (message : String)
    (h : r.indexEntries = []) :
    commit_changes r message = .error .invalidOperation := by
  unfold commit_changes
  rw [h]
  rfl

/-- Witness for C6 on a concrete repository with an empty index. -/
theorem commit_changes_empty_index_witness :
    commit_changes c6repo "a message" = .error .invalidOperation :=
  commit_changes_empty_index c6repo "a message" rfl

/-- C7: for every repository state, deleting the branch whose name equals
the HEAD shorthand fails with InvalidOperation; the bail happens before
the ref is even looked up, so no ref is removed. -/
theorem delete_branch_current_branch (r : RepoState) (name : String)
    (h : r.headBranch = name) :
    delete_branch r name = .error .invalidOperation := by
  unfold delete_branch
  rw [h]
  simp

/-- Witness for C7 on a repository with exactly one branch, main, which
is checked out. -/
theorem delete_branch_current_branch_witness :
    delete_branch c7repo "main" = .error .invalidOperation :=
  delete_branch_current_branch c7repo "main" rfl

/-- C9: the active-view selector cycles over Status, Log, Branch, Commit
and Help in that order: five successor steps return every view to
itself, the shell-level switch_view advances the selector by exactly one
successor step, and from Status the successive views are Log, Branch,
Commit, Help and Status. -/
theorem switch_view_cycle_five :
    (∀ v : ActiveView, nextView (nextView (nextView (nextView (nextView v)))) = v) ∧
    (∀ a : App, (App.switchView a).activeView = nextView a.activeView) ∧
    nextView .status = .log ∧ nextView .log = .branch ∧ nextView .branch = .commit ∧
    nextView .commit = .help ∧ nextView .help = .status :=
  ⟨fun v => by cases v <;> rfl, fun _ => rfl, rfl, rfl, rfl, rfl, rfl⟩

/-- C10: every run of the Log view refresh drops the commit-detail
record, on the early-error paths as well as on the success path, and a
shell tick with the Log view active therefore returns the view to the
listing state without any Esc key. -/
theorem log_update_clears_detail :
    (∀ (fetch : LogFetch) (v : LogView),
      (LogView.update fetch v).detailedCommit = none) ∧
    (∀ (env : Env) (a : App), a.activeView = ActiveView.log →
      (App.onTick env a).logView.detailedCommit = none) := by
  have hlog : ∀ (fetch : LogFetch) (v : LogView),
      (LogView.update fetch v).detailedCommit = none := by
    intro fetch v
    cases fetch <;> rfl
  refine ⟨hlog, ?_⟩
  intro env a h
  unfold App.onTick
  rw [h]
  exact hlog _ _

/-- Witness for C10: a tick on a shell state showing a commit detail in
the active Log view returns it to the listing state. -/
theorem log_update_clears_detail_witness :
    (App.onTick c10env c10app).logView.detailedCommit = none :=
  log_update_clears_detail.2 c10env c10app rfl

/-- C1 evaluation on the fast-forward scenario: main stays at commit 0
although the merged-in tip of feature is commit 1, and no commit is
created.  The fast-forward arm of merge_branch retargets refs/heads of
the merged-in branch to its own tip, a no-op, instead of moving the
ref of the current branch, so the claimed postcondition that the current
branch points at the tip fails. -/
theorem merge_branch_fastforward_eval :
    okBranches (merge_branch c1repo "feature") = some [("main", 0), ("feature", 1)] ∧
    okCommits (merge_branch c1repo "feature") = some c1repo.commits ∧
    lookupBranch c1repo.branches "main" = some 0 ∧
    lookupBranch c1repo.branches "feature" = some 1 ∧
    (0 : Nat) ≠ 1 :=
  ⟨rfl, rfl, rfl, rfl, by decide⟩

/-- C2 evaluation on the pull scenario: the fetch records the remote tip
9 of origin/b, yet the integration commit created by pull_branch has
second parent 1, the tip of the local refs/heads/b resolved before the
fetch, not the fetched remote tip; the message is the claimed
Pull from origin/b. -/
theorem pull_branch_ignores_fetched_tip_eval :
    okFetched (pull_branch c2repo "origin" "b") = some [(("origin", "b"), 9)] ∧
    okCommits (pull_branch c2repo "origin" "b") =
      some (c2repo.commits ++ [(5, ⟨[0, 1], "Pull from origin/b", 12⟩)]) ∧
    c2repo.remoteTip "origin" "b" = some 9 ∧
    lookupBranch c2repo.branches "b" = some 1 ∧
    (9 : Nat) ≠ 1 :=
  ⟨rfl, rfl, rfl, rfl, by decide⟩

/-- C3 counterexample: a Branch view refresh that shrinks the item list
to one entry leaves the selection index at 3, above the last valid
index 0, because BranchView update never touches the selection. -/
theorem branch_update_no_clamp_cex :
    (BranchView.update ["* main"]
      ⟨["* main", "  dev", "  x", "  y"], .normal, "", 3⟩).items.length = 1 ∧
    (BranchView.update ["* main"]
      ⟨["* main", "  dev", "  x", "  y"], .normal, "", 3⟩).selected = 3 ∧
    ¬((3 : Nat) ≤ 1 - 1) :=
  ⟨rfl, rfl, by decide⟩

/-- C3 amended: the Log view refresh clamps the selection within the new
item list on its success path (for every nonempty walked list) and on
the repository-open-failure path, where the single error item and the
clamp bring it to index 0; only a failure creating the revwalk or
pushing HEAD returns early and leaves the selection unchanged.  The
Branch view refresh leaves the selection index unchanged on every path,
so there it can exceed the last valid index of the new list. -/
theorem update_clamp_amended :
    (∀ (walked : List CommitItem) (v : LogView), walked ≠ [] →
      (LogView.update (.success walked) v).selected < walked.length) ∧
    (∀ (e : CommitItem) (v : LogView),
      (LogView.update (.openFailure e) v).selected <
        (LogView.update (.openFailure e) v).items.length) ∧
    (∀ (e : CommitItem) (v : LogView),
      (LogView.update (.walkFailure e) v).selected = v.selected) ∧
    (∀ (fetched : List String) (v : BranchView),
      (BranchView.update fetched v).selected = v.selected) := by
  refine ⟨?_, ?_, ?_, ?_⟩
  · intro walked v hw
    have hl : 0 < walked.length := List.length_pos.mpr hw
    show (if v.selected ≥ walked.length ∧ v.selected > 0 then walked.length - 1
      else v.selected) < walked.length
    split
    · omega
    · next hcond => omega
  · intro e v
    show (if v.selected ≥ 1 ∧ v.selected > 0 then 1 - 1 else v.selected) < 1
    split
    · omega
    · next hcond => omega
  · intro e v
    rfl
  · intro fetched v
    rfl

/-- Witness for the amended C3 at concrete inputs. -/
theorem update_clamp_amended_witness :
    (LogView.update (.success [⟨"c0", "me", "today", "root"⟩]) ⟨[], 5, none⟩).selected <
      [(⟨"c0", "me", "today", "root"⟩ : CommitItem)].length ∧
    (LogView.update (.openFailure ⟨"Error", "Error", "", "boom"⟩) ⟨[], 5, none⟩).selected <
      (LogView.update (.openFailure ⟨"Error", "Error", "", "boom"⟩) ⟨[], 5, none⟩).items.length ∧
    (LogView.update (.walkFailure ⟨"Error", "Error", "", "boom"⟩) ⟨[], 5, none⟩).selected = 5 ∧
    (BranchView.update [] ⟨[], .normal, "", 3⟩).selected = 3 :=
  ⟨update_clamp_amended.1 [⟨"c0", "me", "today", "root"⟩] ⟨[], 5, none⟩ (by simp),
   update_clamp_amended.2.1 ⟨"Error", "Error", "", "boom"⟩ ⟨[], 5, none⟩,
   update_clamp_amended.2.2.1 ⟨"Error", "Error", "", "boom"⟩ ⟨[], 5, none⟩,
   update_clamp_amended.2.2.2 [] ⟨[], .normal, "", 3⟩⟩

/-- C4 evaluation of the staging scenario.  At the shell level, with the
Status view active over the scenario items, the a key and the Enter key
both leave the whole application state unchanged and stage nothing,
because the dispatch arm for the Status view in App handle_input is
commented out in the source.  The staging-capable Status view machine of
the views module, run on its own over the same items with selection 1,
does satisfy the claimed behaviour: after a and Enter the paths passed
to add_files across both steps are exactly b.txt, the path parsed from
the selected line M b.txt after the status code, a.txt is not staged,
and the input state is back to Normal; that machine, however, is never
reached by the shell. -/
theorem status_staging_dispatch_eval :
    App.handleInput c4env (Key.char 'a') c4app = (false, c4app) ∧
    App.handleInput c4env Key.enter c4app = (false, c4app) ∧
    c4step1.2.2 = [] ∧
    c4step1.1.inputMode = Views.InputMode.addingFiles ∧
    c4step2.2.2 = ["b.txt"] ∧
    c4step2.1.inputMode = Views.InputMode.normal :=
  ⟨rfl, rfl, rfl, rfl, rfl, rfl⟩

/-- C5: whenever the merged-in branch resolves, the analysis of its tip
is normal, the merged index has no conflicts and HEAD resolves,
merge_branch creates exactly one commit, whose parent list is
[current HEAD commit, merged-in tip] in that order and whose message is
Merge branch followed by the quoted branch name. -/
theorem merge_branch_normal_commit (r : RepoState) (name : String)
    (tip headTip : Nat)
    (hne : r.headBranch ≠ name)
    (htip : lookupBranch r.branches name = some tip)
    (hana : r.analysis tip = MergeKind.normal)
    (hconf : r.mergeConflicts = false)
    (hhead : lookupBranch r.branches r.headBranch = some headTip) :
    ∃ r1, merge_branch r name = .ok r1 ∧
      r1.commits = r.commits ++
        [(r.freshId, ⟨[headTip, tip], mergeMsg name, r.mergedTree⟩)] := by
  refine ⟨{ r with
      commits := r.commits ++
        [(r.freshId, ⟨[headTip, tip], mergeMsg name, r.mergedTree⟩)],
      branches := setBranchTarget r.branches r.headBranch r.freshId,
      freshId := r.freshId + 1 }, ?_, ?_⟩
  · simp [merge_branch, beq_eq_false_iff_ne.mpr hne, htip, hana, hconf, hhead]
  · rfl

/-- Witness for C5 on the divergent-history scenario: main at commit 2,
feature at commit 3, and the merge commit gets parents [2, 3]. -/
theorem merge_branch_normal_commit_witness :
    ∃ r1, merge_branch c5repo "feature" = .ok r1 ∧
      r1.commits = c5repo.commits ++ [(4, ⟨[2, 3], mergeMsg "feature", 7⟩)] :=
  merge_branch_normal_commit c5repo "feature" 3 2 (by decide) rfl rfl rfl rfl

/-- C8: for a repository whose HEAD resolves to a commit of the current
branch and a name that is not yet a local branch, create_branch then
delete_branch both succeed, and the branch table afterwards equals the
one before the pair of calls. -/
theorem create_delete_roundtrip (r : RepoState) (name : String) (h : Nat)
    (hnew : lookupBranch r.branches name = none)
    (hhead : lookupBranch r.branches r.headBranch = some h) :
    ∃ r1 r2, create_branch r name = .ok r1 ∧ delete_branch r1 name = .ok r2 ∧
      r2.branches = r.branches := by
  have hne : r.headBranch ≠ name :=
    ne_of_lookup_some_none r.branches r.headBranch name h hhead hnew
  refine ⟨{ r with branches := r.branches ++ [(name, h)] },
    { r with branches := (r.branches ++ [(name, h)]).filter (fun p => !(p.1 == name)) },
    create_branch_eq r name h hnew hhead, ?_, ?_⟩
  · exact delete_branch_eq { r with branches := r.branches ++ [(name, h)] } name h hne
      (by
        rw [lookupBranch_append_of_none r.branches [(name, h)] name hnew]
        exact lookupBranch_cons_self (name, h) [] name rfl)
  · show (r.branches ++ [(name, h)]).filter (fun p => !(p.1 == name)) = r.branches
    rw [List.filter_append, filter_keep_of_lookup_none r.branches name hnew]
    simp [List.filter]

/-- Witness for C8: creating then deleting dev on a repository whose only
branch is main restores the branch table. -/
theorem create_delete_roundtrip_witness :
    ∃ r1 r2, create_branch c8repo "dev" = .ok r1 ∧ delete_branch r1 "dev" = .ok r2 ∧
      r2.branches = c8repo.branches :=
  create_delete_roundtrip c8repo "dev" 0 rfl rfl
